import Mathlib

/-!
# Verification of the sveltekit-service-manager core

Shallow embedding of `src/lib/server/index.ts`: the path compiler
(`createPathRegex`, `createPrefixRegex`), the `ServiceRouter` (routes,
nested routers, `handle`, `discard`), the `ServiceManager` registry
(`Load`, `Reload`) and the gateway (`Base`, `createServiceRequest`).

JavaScript strings are modelled by `String`; the regular expressions the
compiler emits are all of a fixed restricted shape, so they are embedded
as token lists (`RTok`) together with a backtracking matcher
(`matchToks`) implementing the greedy leftmost semantics of the emitted
patterns.  JavaScript objects used as string maps are association lists
with an update-or-append write (`setParam`).  Asynchronous code is
single-threaded cooperative in the source, so it is embedded as ordinary
state-passing functions; recursion through the nested-router tree and
through dependency loading uses explicit fuel.
-/

/-- JS `s.startsWith(p)`. -/
def strStartsWith (s p : String) : Bool := p.data.isPrefixOf s.data

/-- JS `s.endsWith(p)`. -/
def strEndsWith (s p : String) : Bool := p.data.isSuffixOf s.data

/-- JS `s.slice(a, -b)`: drop `a` characters at the front and `b` at the back. -/
def strSlice (s : String) (a b : Nat) : String :=
  let l := s.data.drop a
  String.mk (l.take (l.length - b))

/-- Split a character list at every occurrence of `c`, keeping empty
pieces, accumulating the current piece in reverse. -/
def splitOnCharAux (c : Char) : List Char → List Char → List String
  | [], acc => [String.mk acc.reverse]
  | x :: xs, acc =>
    if x = c then String.mk acc.reverse :: splitOnCharAux c xs []
    else splitOnCharAux c xs (x :: acc)

/-- JS `s.split(c)` for a single-character separator. -/
def jsSplit (s : String) (c : Char) : List String := splitOnCharAux c s.data []

/-- JS `path.split('/').filter(Boolean)`. -/
def jsSegments (s : String) : List String :=
  (jsSplit s '/').filter (fun e => !e.isEmpty)

/-- A token of one of the regex fragments emitted by the path compiler:
`'/' + escapedLiteral`, `'/([^/]+)'`, `'(?:/([^/]*))?'` and `'/(.+)'`. -/
inductive RTok where
  | lit (cs : List Char)
  | param
  | optSeg
  | catchAll
deriving Repr, DecidableEq

/-- First `some` produced by `f` over `l` (used for the greedy ordering of
candidate consumption lengths of a quantified regex fragment). -/
def firstSome (l : List α) (f : α → Option β) : Option β :=
  match l with
  | [] => none
  | x :: xs =>
    match f x with
    | some r => some r
    | none => firstSome xs f

/-- Candidate lengths for a greedy `+` quantifier over a run of `m`
admissible characters, longest first: `[m, ..., 1]`. -/
def plusLens (m : Nat) : List Nat := (List.range m).map (fun i => m - i)

/-- Candidate lengths for a greedy `*` quantifier, longest first:
`[m, ..., 0]`. -/
def starLens (m : Nat) : List Nat := (List.range (m + 1)).map (fun i => m - i)

/-- Backtracking matcher for a token list, anchored at the start of
`input`.  `k` finishes the match (it embeds the pattern tail: `/?$` for
route regexes, the `(?=/|$)` lookahead for prefix regexes) and returns
the unconsumed input.  On success the capture list (one entry per
capturing group, `none` when the group did not participate) and the
remaining input are returned.  Alternatives are tried in the greedy
order of the JavaScript regex engine. -/
def matchToks : List RTok → List Char →
    (List Char → Option (List (Option String) × List Char)) →
    Option (List (Option String) × List Char)
  | [], input, k => k input
  | .lit cs :: ts, input, k =>
    if cs.isPrefixOf input then matchToks ts (input.drop cs.length) k else none
  | .param :: ts, input, k =>
    match input with
    | '/' :: rest =>
      let m := (rest.takeWhile (fun c => c ≠ '/')).length
      firstSome (plusLens m) (fun j =>
        (matchToks ts (rest.drop j) k).map
          (fun (r : List (Option String) × List Char) => (some (String.mk (rest.take j)) :: r.1, r.2)))
    | _ => none
  | .optSeg :: ts, input, k =>
    let present :=
      match input with
      | '/' :: rest =>
        let m := (rest.takeWhile (fun c => c ≠ '/')).length
        firstSome (starLens m) (fun j =>
          (matchToks ts (rest.drop j) k).map
            (fun (r : List (Option String) × List Char) => (some (String.mk (rest.take j)) :: r.1, r.2)))
      | _ => none
    match present with
    | some r => some r
    | none => (matchToks ts input k).map (fun (r : List (Option String) × List Char) => (none :: r.1, r.2))
  | .catchAll :: ts, input, k =>
    match input with
    | '/' :: rest =>
      let m := (rest.takeWhile (fun c => c ≠ '\n')).length
      firstSome (plusLens m) (fun j =>
        (matchToks ts (rest.drop j) k).map
          (fun (r : List (Option String) × List Char) => (some (String.mk (rest.take j)) :: r.1, r.2)))
    | _ => none

/-- Match a route regex `^.../?$` against a path: the captures on success. -/
def routeMatch (toks : List RTok) (s : String) : Option (List (Option String)) :=
  (matchToks toks s.data
    (fun rest => if rest = [] ∨ rest = ['/'] then some ([], rest) else none)).map (·.1)

/-- Match a prefix regex `^...(?=/|$)` against a path: `match[0]` (the
matched prefix of the path) and the captures on success. -/
def prefixMatch (toks : List RTok) (s : String) : Option (String × List (Option String)) :=
  (matchToks toks s.data
    (fun rest => if rest = [] ∨ rest.head? = some '/' then some ([], rest) else none)).map
    (fun r => (String.mk (s.data.take (s.data.length - r.2.length)), r.1))

/-- JS `match[i + 1] || ''`: the capture at group index `i`, with a
non-participating group (or a missing index) read as the empty string. -/
def capAt (caps : List (Option String)) (i : Nat) : String :=
  match caps.get? i with
  | some (some v) => v
  | _ => ""

/-- Result of compiling a template: the regex (as tokens) plus the
metadata stored alongside it. -/
structure PathRegex where
  toks : List RTok
  paramNames : List String
  isCatchAll : Bool
  isOptional : Bool
  priority : Int
deriving Repr, DecidableEq

/-- One step of the regex-construction loop of `createPathRegex`
(lines 172-190 of `index.ts`): classify a path part and append its
regex fragment, parameter name and flags. -/
def pathPartStep (st : List RTok × List String × Bool × Bool) (part : String) :
    List RTok × List String × Bool × Bool :=
  if strStartsWith part "[..." && strEndsWith part "]" then
    (st.1 ++ [.catchAll], st.2.1 ++ [strSlice part 4 1], true, st.2.2.2)
  else if strStartsWith part "[[" && strEndsWith part "]]" then
    (st.1 ++ [.optSeg], st.2.1 ++ [strSlice part 2 2], st.2.2.1, true)
  else if strStartsWith part "[" && strEndsWith part "]" then
    (st.1 ++ [.param], st.2.1 ++ [strSlice part 1 1], st.2.2.1, st.2.2.2)
  else
    (st.1 ++ [.lit ('/' :: part.data)], st.2.1, st.2.2.1, st.2.2.2)

/-- The priority reduction of `createPathRegex` (lines 162-167): `+1`
static, `-1` param, `-5` optional, `-10` catch-all, summed left to right. -/
def prioritySum (segments : List String) : Int :=
  segments.foldl
    (fun acc segment =>
      if strStartsWith segment "[..." then acc - 10
      else if strStartsWith segment "[[" && strEndsWith segment "]]" then acc - 5
      else if strStartsWith segment "[" then acc - 1
      else acc + 1) 0

/-- The function `createPathRegex` (lines 152-202): compile a route
template into a matcher, parameter names, flags and priority.  The memo
cache is irrelevant to the result (the function is pure), so it is not
modelled. -/
def createPathRegex (path : String) : PathRegex :=
  let segments := jsSegments path
  let st := segments.foldl pathPartStep ([], [], false, false)
  { toks := st.1
    paramNames := st.2.1
    isCatchAll := st.2.2.1
    isOptional := st.2.2.2
    priority := prioritySum segments }

/-- One step of the regex-construction loop of
`ServiceRouter.createPrefixRegex` (lines 394-413): identical to
`pathPartStep` except that a catch-all part emits `'/([^/]+)'`
(one segment) instead of `'/(.+)'`. -/
def prefixPartStep (st : List RTok × List String × Bool × Bool) (part : String) :
    List RTok × List String × Bool × Bool :=
  if strStartsWith part "[..." && strEndsWith part "]" then
    (st.1 ++ [.param], st.2.1 ++ [strSlice part 4 1], true, st.2.2.2)
  else if strStartsWith part "[[" && strEndsWith part "]]" then
    (st.1 ++ [.optSeg], st.2.1 ++ [strSlice part 2 2], st.2.2.1, true)
  else if strStartsWith part "[" && strEndsWith part "]" then
    (st.1 ++ [.param], st.2.1 ++ [strSlice part 1 1], st.2.2.1, st.2.2.2)
  else
    (st.1 ++ [.lit ('/' :: part.data)], st.2.1, st.2.2.1, st.2.2.2)

/-- The method `ServiceRouter.createPrefixRegex` (lines 378-423): like
`createPathRegex` but not end-anchored (the emitted regex ends in the
`(?=/|$)` lookahead, which `prefixMatch` implements). -/
def createPrefixRegex (pfx : String) : PathRegex :=
  let segments := jsSegments pfx
  let st := segments.foldl prefixPartStep ([], [], false, false)
  { toks := st.1
    paramNames := st.2.1
    isCatchAll := st.2.2.1
    isOptional := st.2.2.2
    priority := prioritySum segments }

instance [DecidableEq ε] [DecidableEq α] : DecidableEq (Except ε α) := fun a b =>
  match a, b with
  | .ok x, .ok y =>
    if h : x = y then .isTrue (by rw [h]) else .isFalse (by simp [h])
  | .ok _, .error _ => .isFalse (by simp)
  | .error _, .ok _ => .isFalse (by simp)
  | .error e, .error f =>
    if h : e = f then .isTrue (by rw [h]) else .isFalse (by simp [h])

/-- JS object write `params[name] = value`: update the binding in place
if the key exists, append it otherwise. -/
def setParam : List (String × String) → String → String → List (String × String)
  | [], k, v => [(k, v)]
  | (k', v') :: ps, k, v =>
    if k' = k then (k, v) :: ps else (k', v') :: setParam ps k v

/-- JS object spread `{...a, ...b}` restricted to string values: write
every binding of `b` over `a`. -/
def mergeParams (a b : List (String × String)) : List (String × String) :=
  b.foldl (fun acc p => setParam acc p.1 p.2) a

/-- Pair every element with its index starting at `start`
(JS `forEach((x, index) => ...)`). -/
def withIdx : List String → Nat → List (String × Nat)
  | [], _ => []
  | x :: xs, start => (x, start) :: withIdx xs (start + 1)

/-- Capture-to-parameter extraction shared by `extractPathParams` and
`extractPrefixParams` (lines 445-454 and 523-531): a catch-all with a
single declared name binds `match[1] || ''` to that name; otherwise each
name binds `match[index + 1] || ''` in declaration order. -/
def bindParams (paramNames : List String) (isCatchAll : Bool)
    (caps : List (Option String)) : List (String × String) :=
  if isCatchAll && paramNames.length == 1 then
    [(paramNames.headD "", capAt caps 0)]
  else
    (withIdx paramNames 0).foldl (fun ps q => setParam ps q.1 (capAt caps q.2)) []

/-- The method `ServiceRouter.extractPathParams` (lines 434-457):
recompile the route template, rematch the request path and bind the
captures; an unmatched path yields the empty parameter object. -/
def extractPathParams (routePath requestPath : String) : List (String × String) :=
  let r := createPathRegex routePath
  match routeMatch r.toks requestPath with
  | none => []
  | some caps => bindParams r.paramNames r.isCatchAll caps

/-- An entry of `ServiceRouter._routes` as built by `addHandler`
(lines 349-371).  The handler function is opaque to the router, so it is
represented by a numeric tag; `handle` returns the tag together with the
enhanced event the source would call the handler with. -/
structure RouteEntry where
  method : String
  path : String
  handler : Nat
  toks : List RTok
  paramNames : List String
  isCatchAll : Bool
  isOptional : Bool
  priority : Int
deriving Repr, DecidableEq

/-- Compiled metadata of a nested-router entry (`NestedRouter` interface,
lines 206-214, minus the child router itself). -/
structure PrefixMeta where
  toks : List RTok
  paramNames : List String
  isCatchAll : Bool
  isOptional : Bool
  priority : Int
deriving Repr, DecidableEq

/-- The `ServiceRouter` class: local routes, nested routers (normalized
prefix, child router, compiled prefix metadata) and the `routesSorted`
flag. -/
inductive SRouter where
  | mk (routes : List RouteEntry) (nested : List (String × SRouter × PrefixMeta))
      (routesSorted : Bool)

/-- The `_routes` field. -/
def SRouter.routesList : SRouter → List RouteEntry
  | .mk r _ _ => r

/-- The `_nestedRouters` field. -/
def SRouter.nestedList : SRouter → List (String × SRouter × PrefixMeta)
  | .mk _ n _ => n

/-- The `routesSorted` flag. -/
def SRouter.sortedFlag : SRouter → Bool
  | .mk _ _ s => s

/-- The constructor and `ServiceRouter.New()`: no routes, no nested
routers, `routesSorted = false`. -/
def SRouter.New : SRouter := .mk [] [] false

/-- Build the `Route` record pushed by `addHandler` (lines 349-371). -/
def mkRouteEntry (method path : String) (tag : Nat) : RouteEntry :=
  let c := createPathRegex path
  { method := method, path := path, handler := tag, toks := c.toks
    paramNames := c.paramNames, isCatchAll := c.isCatchAll
    isOptional := c.isOptional, priority := c.priority }

/-- The method `ServiceRouter.addHandler` (also the `GET`/`POST`/...
wrappers): push the compiled route and clear `routesSorted`. -/
def SRouter.addHandler (r : SRouter) (method path : String) (tag : Nat) : SRouter :=
  .mk (r.routesList ++ [mkRouteEntry method path tag]) (r.nestedList) false

/-- The method `ServiceRouter.normalizePrefix` (lines 425-428). -/
def normalizePrefix (pfx : String) : String :=
  let normalized := if strStartsWith pfx "/" then pfx else "/" ++ pfx
  if strEndsWith normalized "/" then String.mk normalized.data.dropLast else normalized

/-- The method `ServiceRouter.use` (lines 277-292): normalize the
prefix, compile the prefix regex and push the nested entry. -/
def SRouter.use (r : SRouter) (pfx : String) (child : SRouter) : SRouter :=
  let normalized := normalizePrefix pfx
  let c := createPrefixRegex normalized
  .mk r.routesList
    (r.nestedList ++ [(normalized, child,
      { toks := c.toks, paramNames := c.paramNames, isCatchAll := c.isCatchAll
        isOptional := c.isOptional, priority := c.priority })])
    r.sortedFlag

/-- The method `ServiceRouter.discard` (lines 267-274), exactly as
written: with a method, routes are kept only when
`path !== path_or_prefix && method !== routeMethod`; without one, nested
routers with the exact prefix are removed first and the route filter
degenerates to `path !== path_or_prefix` (the method inequality is
vacuously true). -/
def SRouter.discard (r : SRouter) ( path_or_prefix : String) (method : Option String) : SRouter :=
  let nested :=
    if method.isNone then r.nestedList.filter (fun n => path_or_prefix ≠ n.1)
    else r.nestedList
  .mk (r.routesList.filter (fun rt => rt.path ≠ path_or_prefix && method ≠ some rt.method))
    nested r.sortedFlag

/-- The method `ServiceRouter.normalizePath` (lines 430-432): strip one
trailing slash, an emptied path becomes `/`. -/
def normalizePath (p : String) : String :=
  let q := if strEndsWith p "/" then String.mk p.data.dropLast else p
  if q = "" then "/" else q

/-- The enhanced request event (`ServiceRequestEvent`) restricted to the
data the router and gateway read or write: the parameter object, the
request method, `url.pathname`, `route.id`, `route.base` and
`route.service`. -/
structure Event where
  params : List (String × String)
  method : String
  urlPath : String
  routeId : Option String
  base : String
  service : String
deriving Repr, DecidableEq

/-- Routing failure: the 404 thrown by `handleLocalRoutes` (line 558)
carrying the method and normalized path, or fuel exhaustion of the
embedding's bounded recursion through nested routers. -/
inductive RErr where
  | notFound (method path : String)
  | fuelOut
deriving Repr, DecidableEq

/-- Stable insertion of `x` after every element of at least its
priority (the stable descending sort of JS `Array.prototype.sort` with
comparator `b.priority - a.priority`). -/
def insertPrioDesc (pr : α → Int) (x : α) : List α → List α
  | [] => [x]
  | y :: ys => if pr x ≤ pr y then y :: insertPrioDesc pr x ys else x :: y :: ys

/-- Stable sort by descending priority. -/
def sortPrioDesc (pr : α → Int) (l : List α) : List α :=
  l.foldl (fun acc x => insertPrioDesc pr x acc) []

/-- The method `ServiceRouter.matchesPrefix` (lines 495-512): match the
prefix regex, take `match[0]` and normalize the remaining path. -/
def matchesPrefix (path : String) (meta : PrefixMeta) : Option (String × String) :=
  match prefixMatch meta.toks path with
  | none => none
  | some (matchedPath, _) =>
    let remainingPath := String.mk (path.data.drop matchedPath.length)
    let normalized :=
      if strStartsWith remainingPath "/" then remainingPath else "/" ++ remainingPath
    some (matchedPath, if normalized = "" then "/" else normalized)

/-- The method `ServiceRouter.extractPrefixParams` (lines 514-534):
rematch the matched prefix and bind its captures. -/
def extractPrefixParams (meta : PrefixMeta) (matchedPath : String) : List (String × String) :=
  match prefixMatch meta.toks matchedPath with
  | none => []
  | some (_, caps) => bindParams meta.paramNames meta.isCatchAll caps

/-- The loop of `handleNestedRouters` (lines 463-490): the first nested
entry (in the given, already sorted, order) whose prefix matches,
together with the matched prefix and the normalized remaining path. -/
def firstPrefixHit : List (String × SRouter × PrefixMeta) → String →
    Option ((String × SRouter × PrefixMeta) × String × String)
  | [], _ => none
  | e :: es, path =>
    match matchesPrefix path e.2.2 with
    | some (matchedPath, remainingPath) => some (e, matchedPath, remainingPath)
    | none => firstPrefixHit es path

/-- The derived event built when descending into a nested router
(lines 475-487): the remaining path becomes both `url.pathname` and
`route.service`, the prefix is appended to `route.base`, and the prefix
parameters are merged over the inherited ones. -/
def descendEvent (ev : Event) (pfx : String) (meta : PrefixMeta)
    (matchedPath remainingPath : String) : Event :=
  { ev with
    urlPath := remainingPath
    base := ev.base ++ pfx
    service := remainingPath
    params := mergeParams ev.params (extractPrefixParams meta matchedPath) }

/-- The method `ServiceRouter.handle` (lines 328-346): normalize the
path, try the nested routers sorted by descending priority (recursing on
the first prefix hit), then sort the local routes if dirty and try them
in order.  `fuel` bounds the recursion depth through nested routers. -/
def SRouter.handle : Nat → SRouter → Event → Except RErr (Nat × Event)
  | 0, _, _ => .error .fuelOut
  | fuel + 1, r, ev =>
    let path := normalizePath (if ev.service = "" then ev.urlPath else ev.service)
    match firstPrefixHit (sortPrioDesc (fun e => e.2.2.priority) r.nestedList) path with
    | some (e, matchedPath, remainingPath) =>
      SRouter.handle fuel e.2.1 (descendEvent ev e.1 e.2.2 matchedPath remainingPath)
    | none =>
      let routes := if r.sortedFlag then r.routesList
        else sortPrioDesc (fun rt => rt.priority) r.routesList
      let rec go : List RouteEntry → Except RErr (Nat × Event)
        | [] => .error (.notFound ev.method path)
        | rt :: rts =>
          if rt.method = ev.method then
            match routeMatch rt.toks path with
            | some _ =>
              .ok (rt.handler,
                { ev with
                  params := mergeParams ev.params (extractPathParams rt.path path)
                  routeId := some rt.path })
            | none => go rts
          else go rts
      go routes

/-- A service's route tree (the `route` field of the `Service`
interface, line 107): a `ServiceRouter`, a bare handler function, or a
per-method handler map.  Handler functions are opaque numeric tags. -/
inductive RouteTree where
  | router (r : SRouter)
  | fnHandler (tag : Nat)
  | methodMap (m : List (String × Nat))

/-- A service descriptor (the `Service` interface, lines 100-111)
restricted to the fields the registry reads.  The `load` and `cleanup`
hooks are embedded by their observable behaviour: `none` means no hook,
`some true` a hook that completes, `some false` a hook that throws. -/
structure Service where
  name : String
  dependsOn : List String
  load : Option Bool
  cleanup : Option Bool
  route : Option RouteTree

/-- The private state of the `ServiceManager` singleton: the committed
`services` map and the keys of the `loadingPromises` map. -/
structure ManagerState where
  services : List (String × Service)
  loadingPromises : List String

/-- JS `Map.prototype.set`: update in place or append. -/
def mapSet (m : List (String × Service)) (k : String) (v : Service) :
    List (String × Service) :=
  if (m.lookup k).isSome then m.map (fun p => if p.1 = k then (k, v) else p)
  else m ++ [(k, v)]

/-- A failure of `ServiceManager.Load`: the `ServiceError`s thrown at
lines 617 (circular dependency), 628 (dependency not found) and 640
(load hook failure), plus fuel exhaustion of the embedding's bounded
recursion. -/
inductive LoadErr where
  | circular (name : String)
  | depNotFound (dep svcName : String)
  | loadFailed (name : String)
  | fuelOut
deriving Repr, DecidableEq

/-- The dependency stage of `loadServiceRecursively` (lines 622-633),
sequentialized: the source awaits `Promise.all` over the dependency
list, and every dependency mapper runs its registry lookup and recursion
without observable interleaving, so processing the list left to right is
equivalent.  A name absent from the committed map fails with
`DependencyNotFound`; a committed dependency is recursed into via
`recurse`. -/
def depLoop (recurse : Service → ManagerState → List String →
      Except LoadErr (ManagerState × List String))
    (parent : String) :
    ManagerState → List String → List String → Except LoadErr (ManagerState × List String)
  | st, log, [] => .ok (st, log)
  | st, log, d :: ds =>
    match st.services.lookup d with
    | none => .error (.depNotFound d parent)
    | some dep =>
      match recurse dep st log with
      | .error e => .error e
      | .ok (st1, log1) => depLoop recurse parent st1 log1 ds

/-- The function `loadServiceRecursively` (lines 614-651): an already
committed name returns immediately; a name already on the per-call
loading stack fails with `CircularDependency`; otherwise dependencies
are resolved, the load hook runs (unless a load promise for the name is
already in flight, in which case the source skips the hook block
entirely), and the descriptor is committed.  The second component of the
result is the log of load-hook invocations.  The `loadingPromises` entry
the source adds before awaiting the hook is deleted again in the hook's
`finally`, so the map is unchanged at every exit; only its initial
content is observable. -/
def loadRec : Nat → ManagerState → List String → List String → Service →
    Except LoadErr (ManagerState × List String)
  | 0, _, _, _, _ => .error .fuelOut
  | fuel + 1, st, stack, log, svc =>
    if (st.services.lookup svc.name).isSome then .ok (st, log)
    else if svc.name ∈ stack then .error (.circular svc.name)
    else
      match depLoop (fun dep st' log' => loadRec fuel st' (svc.name :: stack) log' dep)
          svc.name st log svc.dependsOn with
      | .error e => .error e
      | .ok (st1, log1) =>
        match svc.load with
        | none => .ok ({ st1 with services := mapSet st1.services svc.name svc }, log1)
        | some hookSucceeds =>
          if st1.loadingPromises.contains svc.name then
            .ok ({ st1 with services := mapSet st1.services svc.name svc }, log1)
          else if hookSucceeds then
            .ok ({ st1 with services := mapSet st1.services svc.name svc },
              log1 ++ [svc.name])
          else .error (.loadFailed svc.name)

/-- The static method `ServiceManager.Load` (lines 596-662): an already
committed name returns the *supplied* descriptor unchanged without
touching the registry; otherwise `loadServiceRecursively` runs with a
fresh loading stack and the supplied descriptor is returned.  The result
carries the final state, the load-hook log and the returned descriptor.
(The HMR `module.hot` registration is dev-only glue and not modelled.) -/
def SMLoad (fuel : Nat) (st : ManagerState) (svc : Service) :
    Except LoadErr (ManagerState × List String × Service) :=
  if (st.services.lookup svc.name).isSome then .ok (st, [], svc)
  else
    match loadRec fuel st [] [] svc with
    | .error e => .error e
    | .ok (st1, log) => .ok (st1, log, svc)

/-- The static method `ServiceManager.Reload` (lines 668-686): a name
that is not committed is a no-op; otherwise the cleanup hook runs if
present (a throwing hook is caught and logged, the reload proceeds), and
the name is deleted from `services` and `loadingPromises`.  The second
component logs the cleanup invocation as `(name, threw)`.  The source
never touches the descriptor's route tree (the `ServiceRouter` of this
file has no reset operation), so the routers referenced by the removed
descriptor are returned by this embedding exactly as they were. -/
def SMReload (st : ManagerState) (name : String) :
    ManagerState × List (String × Bool) :=
  match st.services.lookup name with
  | none => (st, [])
  | some svc =>
    let log := match svc.cleanup with
      | none => []
      | some hookSucceeds => [(name, !hookSucceeds)]
    ({ services := st.services.filter (fun p => p.1 ≠ name)
       loadingPromises := st.loadingPromises.filter (fun n => n ≠ name) }, log)

/-- A failure of the gateway dispatch built by `ServiceManager.Base`
(lines 708-740): the selector's 400/404, the 403/503/405 of `handle`,
the `Route must have a catch-all segment` error thrown by
`createServiceRequest` (line 750), or an error propagated from the
service's router. -/
inductive GwErr where
  | selectorRequired
  | serviceNotFound (name : String)
  | forbidden (name : String)
  | unavailable (name : String)
  | methodNotAllowed (method : String)
  | catchAllMissing
  | routeErr (e : RErr)
deriving Repr, DecidableEq

/-- The route-id segments `createServiceRequest` derives (lines
744-746): split `route.id` on `/`, drop empty segments and SvelteKit
group segments `(...)`; a missing route id yields the empty list. -/
def routeIdSegs : Option String → List String
  | none => []
  | some rid =>
    ((jsSplit rid '/').filter (fun e => !e.isEmpty)).filter
      (fun e => !(strStartsWith e "(" && strEndsWith e ")"))

/-- The call `findIndex(segment => segment.startsWith('[...'))` of
line 748. -/
def catchAllIdx (rid : Option String) : Option Nat :=
  (routeIdSegs rid).findIdx? (fun s => strStartsWith s "[...")

/-- The static method `ServiceManager.createServiceRequest`
(lines 742-773): derive the base path and the service-relative path from
the position of the catch-all segment in the gateway's route id, and
rewrite the event so that `url.pathname` and `route.service` hold the
service-relative path.  Without a catch-all segment the source throws. -/
def createServiceRequest (ev : Event) : Except GwErr Event :=
  let requestedFullPath := (jsSplit ev.urlPath '/').filter (fun e => !e.isEmpty)
  match catchAllIdx ev.routeId with
  | none => .error .catchAllMissing
  | some i =>
    let basePathParts := requestedFullPath.take i
    let basePath := "/" ++
      (if basePathParts.length > 0 then String.intercalate "/" basePathParts else "")
    let servicePathParts := requestedFullPath.drop i
    let servicePath :=
      if servicePathParts.length > 0 then "/" ++ String.intercalate "/" servicePathParts
      else "/"
    .ok { ev with urlPath := servicePath, service := servicePath, base := basePath }

/-- The allow-list a call of `ServiceManager.Base` starts with: the
source allocates `const allowedServices = new Set<string>()` inside
`Base` (line 712), so every created gateway owns a fresh empty set;
`Base` accepts no gateway-key argument that could select a shared one. -/
def newAllowList : List String := []

/-- The `access` closure returned by `Base` (lines 734-737):
`allowedServices.clear()` followed by adding every key - the result
replaces whatever the set previously contained, so it does not depend
on the previous contents. -/
def access (_previous : List String) (keys : List String) : List String :=
  keys.foldl (fun s k => if s.contains k then s else s ++ [k]) []

/-- The `handle` closure of `ServiceManager.Base` (lines 713-732):
resolve the service through the selector, reject 403 when its name is
not in the gateway's allow-list, reject 503 when it has no route tree,
rewrite the event through `createServiceRequest`, then dispatch on the
shape of the route tree (router / bare handler / per-method map, the
latter rejecting 405 on a missing method). -/
def baseHandle (fuel : Nat) (allowed : List String)
    (selector : Event → Except GwErr Service) (ev : Event) :
    Except GwErr (Nat × Event) :=
  match selector ev with
  | .error e => .error e
  | .ok svc =>
    if allowed.contains svc.name then
      match svc.route with
      | none => .error (.unavailable svc.name)
      | some rt =>
        match createServiceRequest ev with
        | .error e => .error e
        | .ok serviceRequest =>
          match rt with
          | .router r =>
            match SRouter.handle fuel r serviceRequest with
            | .ok res => .ok res
            | .error e => .error (.routeErr e)
          | .fnHandler tag => .ok (tag, serviceRequest)
          | .methodMap m =>
            match m.lookup ev.method with
            | none => .error (.methodNotAllowed ev.method)
            | some tag => .ok (tag, serviceRequest)
    else .error (.forbidden svc.name)

/-- A minimal service-relative request event: empty parameters, no route
id yet, `route.service` set to the request path as `createServiceRequest`
would. -/
def mkEv (method path : String) : Event :=
  { params := [], method := method, urlPath := path, routeId := none
    base := "", service := path }

/-- Router with three routes, used against `discard`: GET `/a`, POST
`/a` and GET `/b`. -/
def c1Router : SRouter :=
  ((SRouter.New.addHandler "GET" "/a" 1).addHandler "POST" "/a" 2).addHandler "GET" "/b" 3

/-- Committed service used by the gateway claims. -/
def c2Service : Service :=
  { name := "svc", dependsOn := [], load := none, cleanup := none
    route := some (.fnHandler 7) }

/-- Gateway event resolving to `c2Service`. -/
def c2Ev : Event :=
  { params := [], method := "GET", urlPath := "/api/svc/x"
    routeId := some "/api/[service_name]/[...rest]", base := "", service := "" }

/-- Router of the reloaded service: one GET route `/a`. -/
def c4Router : SRouter := SRouter.New.addHandler "GET" "/a" 1

/-- Service whose cleanup hook throws and whose route tree is a router. -/
def c4Service : Service :=
  { name := "s", dependsOn := [], load := none, cleanup := some false
    route := some (.router c4Router) }

/-- Registry with `c4Service` committed and an in-flight entry. -/
def c4State : ManagerState := ⟨[("s", c4Service)], ["s"]⟩

/-- Child router of the mount, with GET `/profile`. -/
def c7Child : SRouter := SRouter.New.addHandler "GET" "/profile" 1

/-- Parent router with the child mounted at `/users/[id]`. -/
def c7Parent : SRouter := SRouter.New.use "/users/[id]" c7Child

/-- Descriptor whose dependency list contains its own name. -/
def c3Svc : Service :=
  { name := "a", dependsOn := ["a"], load := some true, cleanup := none, route := none }

/-- The empty registry. -/
def emptyState : ManagerState := ⟨[], []⟩

/-- Descriptor committed in the registry for the idempotence claims. -/
def c5Committed : Service :=
  { name := "a", dependsOn := [], load := some true, cleanup := none, route := none }

/-- A different descriptor sharing the committed name. -/
def c5Supplied : Service :=
  { name := "a", dependsOn := ["other"], load := none, cleanup := none, route := none }

/-- Registry with `c5Committed` committed. -/
def c5State : ManagerState := ⟨[("a", c5Committed)], []⟩

/-- Committed service whose route tree is a per-method map with only a
GET entry. -/
def c8MapService : Service :=
  { name := "m", dependsOn := [], load := none, cleanup := none
    route := some (.methodMap [("GET", 5)]) }

/-- The committed map is well formed when every entry is keyed by its
descriptor's name (an invariant `ServiceManager` maintains, since the
only write is `services.set(svc.name, svc)` at line 650). -/
def WFState (st : ManagerState) : Prop := ∀ p ∈ st.services, p.2.name = p.1

/-- The per-segment score of the priority reduction: `+1` static, `-1`
param, `-5` optional, `-10` catch-all. -/
def segScore (segment : String) : Int :=
  if strStartsWith segment "[..." then -10
  else if strStartsWith segment "[[" && strEndsWith segment "]]" then -5
  else if strStartsWith segment "[" then -1
  else 1

/-- C1: the claim states that `discard("/a", "GET")` removes only the
route registered as GET `/a`, leaving POST `/a` and GET `/b` in the
table and reachable.  The filter at lines 269-272 keeps a route only
when `path !== path_or_prefix && method !== routeMethod`, so it also
removes every route sharing the template (POST `/a`) and every route
sharing the method (GET `/b`): the table is left empty and both
supposedly-unaffected routes answer 404. -/
theorem discard_with_method_removes_unrelated_routes :
    (c1Router.routesList.map (fun rt => (rt.method, rt.path)))
      = [("GET", "/a"), ("POST", "/a"), ("GET", "/b")]
    ∧ (c1Router.discard "/a" (some "GET")).routesList = []
    ∧ SRouter.handle 1 (c1Router.discard "/a" (some "GET")) (mkEv "POST" "/a")
      = .error (.notFound "POST" "/a")
    ∧ SRouter.handle 1 (c1Router.discard "/a" (some "GET")) (mkEv "GET" "/b")
      = .error (.notFound "GET" "/b") :=
  ⟨rfl, rfl, rfl, rfl⟩

/-- C2: the claim states that gateways created with the same key share
one allow-list, so that a re-created gateway reattaches to the set a
previous `access` call filled.  `ServiceManager.Base` takes no key at
all and allocates `const allowedServices = new Set<string>()` per call
(line 712): after a first gateway's `access("svc")` produced `["svc"]`,
a freshly created gateway still starts from the empty `newAllowList` and
rejects `svc` with 403.  (The `access` closure does replace rather than
append - its result ignores the previous contents - which is the part of
the claim the code satisfies.) -/
theorem base_allowList_not_shared_across_instances :
    access newAllowList ["svc"] = ["svc"]
    ∧ newAllowList = []
    ∧ baseHandle 1 newAllowList (fun _ => .ok c2Service) c2Ev
      = .error (.forbidden "svc")
    ∧ ∀ previous : List String, access previous ["svc"] = ["svc"] :=
  ⟨rfl, rfl, rfl, fun _ => rfl⟩

/-- C4: the claim states that `Reload` also calls a reset on the
service's router so the router is left empty.  The source's `Reload`
(lines 668-686) runs the cleanup hook (proceeding when it throws) and
deletes the name from both tables, but never touches the route tree -
the `ServiceRouter` class has no reset operation - so the service's
router still resolves GET `/a` to the old handler afterwards, instead of
failing with `RouteNotFound` on an empty router.  Reload of an
uncommitted name is the claimed no-op. -/
theorem reload_leaves_router_routes_intact :
    SMReload c4State "s" = (⟨[], []⟩, [("s", true)])
    ∧ SMReload c4State "zzz" = (c4State, [])
    ∧ SRouter.handle 1 c4Router (mkEv "GET" "/a")
      = .ok (1, { mkEv "GET" "/a" with routeId := some "/a" }) :=
  ⟨rfl, rfl, rfl⟩

/-- C7: on a router with a mount at `/users/[id]` whose child has GET
`/profile`, `handle` of GET `/users/42/profile` matches the mount
prefix, descends with residual path `/profile` (it becomes
`url.pathname` and `route.service`, and the prefix is appended to
`route.base`), and invokes the child route's handler with `id = "42"`
merged into the parameter set. -/
theorem nested_mount_descends_with_residual_path :
    SRouter.handle 2 c7Parent (mkEv "GET" "/users/42/profile")
      = .ok (1,
        { params := [("id", "42")], method := "GET", urlPath := "/profile"
          routeId := some "/profile", base := "/users/[id]", service := "/profile" }) :=
  rfl

/-- C3 counterexample: loading a descriptor whose `dependsOn` contains
its own name on an empty registry does not fail with the
`CircularDependency` error of line 617 - dependency names are resolved
against the committed map first (line 626), and the not-yet-committed
self-name fails there - so `Load` fails with `DependencyNotFound`
instead. -/
theorem self_dependency_not_circular_error :
    SMLoad 2 emptyState c3Svc = .error (.depNotFound "a" "a")
    ∧ ∀ n, SMLoad 2 emptyState c3Svc ≠ .error (.circular n) :=
  ⟨rfl, fun n h => by
    rw [show SMLoad 2 emptyState c3Svc = .error (.depNotFound "a" "a") from rfl] at h
    simp at h⟩

/-- C5 counterexample: the claim states that a second `Load` of an
already committed name returns the already-committed descriptor, not
the newly supplied one.  Lines 608-610 return `_service` - the supplied
argument - so the call returns `c5Supplied`, which differs from the
committed `c5Committed` (their `load` and `dependsOn` fields differ).
The registry is untouched and no hook runs, which is the part of the
claim the code satisfies. -/
theorem load_returns_supplied_descriptor :
    SMLoad 1 c5State c5Supplied = .ok (c5State, [], c5Supplied)
    ∧ c5Supplied.load ≠ c5Committed.load
    ∧ c5Supplied.dependsOn ≠ c5Committed.dependsOn :=
  ⟨rfl, by decide, by decide⟩

/-- C5 (amended): `Load` of a descriptor whose name is already committed
is a no-op on the registry - the committed entry is unchanged and the
load hook does not run (so across both calls it ran exactly once) - and
the call returns the *supplied* descriptor. -/
theorem load_idempotent_noop_on_registry (fuel : Nat) (st : ManagerState)
    (svc committed : Service)
    (h : st.services.lookup svc.name = some committed) :
    SMLoad fuel st svc = .ok (st, [], svc) := by
  simp [SMLoad, h]

/-- Witness for the amended C5 at the concrete registry `c5State`. -/
theorem load_idempotent_noop_on_registry_witness :
    c5State.services.lookup c5Supplied.name = some c5Committed
    ∧ SMLoad 1 c5State c5Supplied = .ok (c5State, [], c5Supplied) :=
  ⟨rfl, load_idempotent_noop_on_registry 1 c5State c5Supplied c5Committed rfl⟩

/-- C9: when the gateway's route id has no segment beginning with
`[...` (after dropping empty and `(...)` group segments), a dispatch
whose service is allowed and has a route tree throws the
`Route must have a catch-all segment` error of `createServiceRequest`
(line 750) before any handler shape is even examined. -/
theorem gateway_requires_catchall_segment (fuel : Nat) (allowed : List String)
    (selector : Event → Except GwErr Service) (ev : Event) (svc : Service)
    (rt : RouteTree)
    (hsel : selector ev = .ok svc)
    (hallow : allowed.contains svc.name = true)
    (hroute : svc.route = some rt)
    (hnone : catchAllIdx ev.routeId = none) :
    baseHandle fuel allowed selector ev = .error .catchAllMissing := by
  simp [baseHandle, hsel, hallow, hroute, createServiceRequest, hnone]
  exact List.mem_of_elem_eq_true hallow

/-- Witness for C9: a gateway event whose route id lacks a catch-all
segment, with an allowed, committed service carrying a route tree. -/
theorem gateway_requires_catchall_segment_witness :
    catchAllIdx (some "/api/[service_name]") = none
    ∧ baseHandle 1 ["svc"] (fun _ => .ok c2Service)
        { c2Ev with routeId := some "/api/[service_name]" }
      = .error .catchAllMissing :=
  ⟨rfl, gateway_requires_catchall_segment 1 ["svc"] (fun _ => .ok c2Service)
    { c2Ev with routeId := some "/api/[service_name]" } c2Service
    (.fnHandler 7) rfl rfl rfl rfl⟩

/-- A route id containing a catch-all segment makes
`createServiceRequest` succeed (the only throw in it is the missing
catch-all check of lines 748-751). -/
theorem createServiceRequest_ok_of_catchAll {ev : Event}
    (h : (catchAllIdx ev.routeId).isSome = true) :
    ∃ serviceRequest, createServiceRequest ev = .ok serviceRequest := by
  unfold createServiceRequest
  cases hc : catchAllIdx ev.routeId with
  | none => rw [hc] at h; simp at h
  | some i => exact ⟨_, rfl⟩

/-- C8: behaviour of the gateway dispatch built by `ServiceManager.Base`
for a request whose selector resolves a committed service, under the
catch-all route-id convention: a name absent from the allow-list is
rejected 403; an allowed service without a route tree is rejected 503;
an allowed service with a per-method map lacking the request's method is
rejected 405; otherwise the inbound event is rewritten by
`createServiceRequest` into a service-relative request and delegated to
the service's router, bare handler, or method-map entry. -/
theorem gateway_dispatch_cases (fuel : Nat) (allowed : List String)
    (selector : Event → Except GwErr Service) (ev : Event) (svc : Service)
    (hsel : selector ev = .ok svc)
    (hcatch : (catchAllIdx ev.routeId).isSome = true) :
    (allowed.contains svc.name = false →
      baseHandle fuel allowed selector ev = .error (.forbidden svc.name))
    ∧ (allowed.contains svc.name = true → svc.route = none →
      baseHandle fuel allowed selector ev = .error (.unavailable svc.name))
    ∧ (∀ m, allowed.contains svc.name = true → svc.route = some (.methodMap m) →
      m.lookup ev.method = none →
      baseHandle fuel allowed selector ev = .error (.methodNotAllowed ev.method))
    ∧ (∀ rt, allowed.contains svc.name = true → svc.route = some rt →
      ∃ serviceRequest, createServiceRequest ev = .ok serviceRequest
        ∧ (∀ r, rt = .router r →
          baseHandle fuel allowed selector ev
            = (SRouter.handle fuel r serviceRequest).mapError GwErr.routeErr)
        ∧ (∀ tag, rt = .fnHandler tag →
          baseHandle fuel allowed selector ev = .ok (tag, serviceRequest))
        ∧ (∀ m tag, rt = .methodMap m → m.lookup ev.method = some tag →
          baseHandle fuel allowed selector ev = .ok (tag, serviceRequest))) := by
  obtain ⟨serviceRequest, hsr⟩ := createServiceRequest_ok_of_catchAll hcatch
  refine ⟨fun hno => ?_, fun hyes hnone => ?_, fun m hyes hmap hmiss => ?_,
    fun rt hyes hrt => ⟨serviceRequest, hsr, fun r hr => ?_, fun tag htag => ?_,
      fun m tag hm htag => ?_⟩⟩
  · simp only [baseHandle, hsel, hno, Bool.false_eq_true, if_false]
  · simp only [baseHandle, hsel, hyes, if_true, hnone]
  · simp only [baseHandle, hsel, hyes, if_true, hmap, hsr, hmiss]
  · subst hr
    simp only [baseHandle, hsel, hyes, if_true, hrt, hsr]
    cases h : SRouter.handle fuel r serviceRequest <;> simp [Except.mapError, h]
  · subst htag
    simp only [baseHandle, hsel, hyes, if_true, hrt, hsr]
  · subst hm
    simp only [baseHandle, hsel, hyes, if_true, hrt, hsr, htag]

/-- Witness for C8 at a concrete gateway: the method-map service
`c8MapService` is allowed, the route id has a catch-all, and a POST
request is rejected 405. -/
theorem gateway_dispatch_cases_witness :
    baseHandle 1 ["m"] (fun _ => .ok c8MapService) { c2Ev with method := "POST" }
      = .error (.methodNotAllowed "POST") :=
  ((gateway_dispatch_cases 1 ["m"] (fun _ => .ok c8MapService)
    { c2Ev with method := "POST" } c8MapService rfl (by rfl)).2.2.1
    [("GET", 5)] (by rfl) rfl rfl)

/-- A successful `Map.get` means the pair is in the underlying list. -/
theorem lookup_mem {l : List (String × Service)} {k : String} {v : Service}
    (h : l.lookup k = some v) : (k, v) ∈ l := by
  induction l with
  | nil => simp [List.lookup] at h
  | cons p ps ih =>
    obtain ⟨a, b⟩ := p
    rw [List.lookup] at h
    cases hbeq : k == a
    · rw [hbeq] at h
      exact List.mem_cons_of_mem _ (ih h)
    · rw [hbeq] at h
      have hk : k = a := by simpa using hbeq
      simp at h
      subst hk
      simp [h]

/-- The function `loadServiceRecursively` on an already committed
descriptor returns immediately (line 615), leaving state and hook log
unchanged. -/
theorem loadRec_committed (fuel : Nat) (st : ManagerState)
    (stack log : List String) (svc : Service)
    (h : (st.services.lookup svc.name).isSome = true) :
    loadRec (fuel + 1) st stack log svc = .ok (st, log) := by
  simp [loadRec, h]

/-- When some name in the dependency list is not committed, the
dependency loop fails with `DependencyNotFound` for the first such name:
committed dependencies before it are recursed into but return
immediately without changing the state. -/
theorem depLoop_first_missing (fuel : Nat) :
    ∀ (ds : List String) (st : ManagerState) (stack log : List String) (parent : String),
    WFState st → (∃ d ∈ ds, st.services.lookup d = none) →
    ∃ d, st.services.lookup d = none ∧
      depLoop (fun dep st' log' => loadRec (fuel + 1) st' stack log' dep)
        parent st log ds = .error (.depNotFound d parent) := by
  intro ds
  induction ds with
  | nil => intro st stack log parent _ h; simp at h
  | cons d ds ih =>
    intro st stack log parent hwf h
    cases hl : st.services.lookup d with
    | none => exact ⟨d, hl, by simp [depLoop, hl]⟩
    | some dep =>
      have hname : dep.name = d := hwf _ (lookup_mem hl)
      have hrec : loadRec (fuel + 1) st stack log dep = .ok (st, log) :=
        loadRec_committed fuel st stack log dep (by rw [hname, hl]; rfl)
      obtain ⟨d₀, hd₀, hmem⟩ := h
      have hds : ∃ x ∈ ds, st.services.lookup x = none := by
        rcases List.mem_cons.mp hd₀ with h1 | h1
        · subst h1; rw [hl] at hmem; exact absurd hmem (by simp)
        · exact ⟨d₀, h1, hmem⟩
      obtain ⟨x, hx, hloop⟩ := ih st stack log parent hwf hds
      exact ⟨x, hx, by simp [depLoop, hl, hrec, hloop]⟩

/-- C3 (amended): a descriptor whose `dependsOn` contains its own
not-yet-committed name fails `Load` with `DependencyNotFound` (for the
first dependency name absent from the committed registry - the self
name is such a name), not with `CircularDependency`, and the failure
commits nothing.  Dependency names are resolved against the committed
map (line 626) and committed dependencies return before the
loading-stack check (line 615), so the cycle error of line 617 is not
reached on this path. -/
theorem self_dependency_fails_depNotFound (fuel : Nat) (st : ManagerState)
    (svc : Service)
    (hwf : WFState st)
    (hnew : st.services.lookup svc.name = none)
    (hself : svc.name ∈ svc.dependsOn) :
    ∃ d, st.services.lookup d = none ∧
      SMLoad (fuel + 2) st svc = .error (.depNotFound d svc.name) := by
  obtain ⟨d, hd, hloop⟩ := depLoop_first_missing fuel svc.dependsOn st
    (svc.name :: []) [] svc.name hwf ⟨svc.name, hself, hnew⟩
  refine ⟨d, hd, ?_⟩
  unfold SMLoad
  rw [hnew]
  simp only [Option.isSome_none, Bool.false_eq_true, if_false]
  rw [loadRec]
  rw [hnew]
  simp only [Option.isSome_none, Bool.false_eq_true, if_false]
  rw [if_neg (List.not_mem_nil svc.name)]
  rw [hloop]

/-- Witness for the amended C3: the self-depending descriptor `c3Svc`
on the empty registry. -/
theorem self_dependency_fails_depNotFound_witness :
    emptyState.services.lookup c3Svc.name = none
    ∧ c3Svc.name ∈ c3Svc.dependsOn
    ∧ ∃ d, emptyState.services.lookup d = none ∧
        SMLoad 2 emptyState c3Svc = .error (.depNotFound d c3Svc.name) :=
  ⟨rfl, by decide,
    self_dependency_fails_depNotFound 0 emptyState c3Svc
      (fun p hp => by simp [emptyState] at hp) rfl (by decide)⟩

/-- A list with a longer prefix also has the shorter one as prefix
(specialised to the bracket literals of the segment classifier). -/
theorem isPrefixOf_bracket_of_cons {c : Char} {rest : List Char} {l : List Char}
    (h : (c :: rest).isPrefixOf l = true) : [c].isPrefixOf l = true := by
  cases l with
  | nil => simp [List.isPrefixOf] at h
  | cons b bs =>
    simp [List.isPrefixOf] at h ⊢
    exact h.1

/-- A segment starting with the catch-all marker starts with `[`. -/
theorem bracket_of_catchAll {s : String} (h : strStartsWith s "[..." = true) :
    strStartsWith s "[" = true := by
  unfold strStartsWith at h ⊢
  exact isPrefixOf_bracket_of_cons (by exact h)

/-- A segment starting with the optional marker starts with `[`. -/
theorem bracket_of_optional {s : String} (h : strStartsWith s "[[" = true) :
    strStartsWith s "[" = true := by
  unfold strStartsWith at h ⊢
  exact isPrefixOf_bracket_of_cons (by exact h)

/-- A segment not starting with `[` is scored `+1`. -/
theorem segScore_static {s : String} (h : strStartsWith s "[" = false) :
    segScore s = 1 := by
  unfold segScore
  have h1 : strStartsWith s "[..." = false := by
    cases hc : strStartsWith s "[..."
    · rfl
    · rw [bracket_of_catchAll hc] at h; cases h
  have h2 : strStartsWith s "[[" = false := by
    cases hc : strStartsWith s "[["
    · rfl
    · rw [bracket_of_optional hc] at h; cases h
  simp [h1, h2, h]

/-- A segment starting with `[` is scored at most `-1`. -/
theorem segScore_bracket {s : String} (h : strStartsWith s "[" = true) :
    segScore s ≤ -1 := by
  unfold segScore
  split_ifs <;> omega

/-- The priority reduction computes the sum of the per-segment scores. -/
theorem prioritySum_foldl (l : List String) :
    ∀ a : Int,
      l.foldl
        (fun acc segment =>
          if strStartsWith segment "[..." then acc - 10
          else if strStartsWith segment "[[" && strEndsWith segment "]]" then acc - 5
          else if strStartsWith segment "[" then acc - 1
          else acc + 1) a
      = a + (l.map segScore).sum := by
  induction l with
  | nil => intro a; simp
  | cons x xs ih =>
    intro a
    simp only [List.foldl_cons, List.map_cons, List.sum_cons, ih]
    unfold segScore
    split_ifs <;> ring

/-- The function `prioritySum` is the sum of the per-segment scores. -/
theorem prioritySum_eq_sum (l : List String) :
    prioritySum l = (l.map segScore).sum := by
  unfold prioritySum
  rw [prioritySum_foldl]
  ring

/-- Mapping a function bounded by `1` sums to at most the length. -/
theorem sum_map_le_length (f : String → Int) :
    ∀ l : List String, (∀ s ∈ l, f s ≤ 1) → (l.map f).sum ≤ (l.length : Int) := by
  intro l
  induction l with
  | nil => intro _; simp
  | cons x xs ih =>
    intro h
    simp only [List.map_cons, List.sum_cons, List.length_cons]
    have hx := h x (by simp)
    have hxs := ih (fun s hs => h s (by simp [hs]))
    push_cast
    omega

/-- Mapping a function that is `1` on every element sums to the length. -/
theorem sum_map_eq_length (f : String → Int) :
    ∀ l : List String, (∀ s ∈ l, f s = 1) → (l.map f).sum = (l.length : Int) := by
  intro l
  induction l with
  | nil => intro _; simp
  | cons x xs ih =>
    intro h
    simp only [List.map_cons, List.sum_cons, List.length_cons]
    rw [h x (by simp), ih (fun s hs => h s (by simp [hs]))]
    push_cast
    ring

/-- With every value at most `1` and one value at most `-1`, the sum is
at most the length minus two. -/
theorem sum_map_le_length_sub_two (f : String → Int) :
    ∀ l : List String, (∀ s ∈ l, f s ≤ 1) → ∀ s₀ ∈ l, f s₀ ≤ -1 →
      (l.map f).sum ≤ (l.length : Int) - 2 := by
  intro l
  induction l with
  | nil => intro _ s₀ hs₀; simp at hs₀
  | cons x xs ih =>
    intro h s₀ hs₀ hneg
    simp only [List.map_cons, List.sum_cons, List.length_cons]
    rcases List.mem_cons.mp hs₀ with h1 | h1
    · subst h1
      have hxs := sum_map_le_length f xs (fun s hs => h s (by simp [hs]))
      push_cast
      omega
    · have hx := h x (by simp)
      have hxs := ih (fun s hs => h s (by simp [hs])) s₀ h1 hneg
      push_cast
      push_cast at hxs
      omega

/-- C6 (amended): the compiled priority of a template is the sum over
its slash-split, empty-filtered segments of `+1` for a static segment,
`-1` for a param, `-5` for an optional and `-10` for a catch-all; and
among templates with the *same number of segments*, every fully static
template has strictly greater priority than every template containing a
bracketed (param, optional or catch-all) segment.  The depth-independent
chain claimed by the spec (static > param-bearing > catch-all regardless
of segment count) does not hold - see the counterexample. -/
theorem priority_sum_and_same_depth_static_dominance :
    (∀ p : String, (createPathRegex p).priority = ((jsSegments p).map segScore).sum)
    ∧ ∀ p q : String,
        (jsSegments p).length = (jsSegments q).length →
        (∀ s ∈ jsSegments p, strStartsWith s "[" = false) →
        (∃ s ∈ jsSegments q, strStartsWith s "[" = true) →
        (createPathRegex q).priority < (createPathRegex p).priority := by
  have hpr : ∀ p : String, (createPathRegex p).priority = prioritySum (jsSegments p) :=
    fun p => rfl
  constructor
  · intro p
    rw [hpr, prioritySum_eq_sum]
  · intro p q hlen hstatic ⟨s₀, hs₀, hbr⟩
    rw [hpr, hpr, prioritySum_eq_sum, prioritySum_eq_sum]
    have hp : ((jsSegments p).map segScore).sum = ((jsSegments p).length : Int) :=
      sum_map_eq_length segScore _ (fun s hs => segScore_static (hstatic s hs))
    have hq : ((jsSegments q).map segScore).sum ≤ ((jsSegments q).length : Int) - 2 :=
      sum_map_le_length_sub_two segScore _ (fun s _ => by
        unfold segScore; split_ifs <;> omega) s₀ hs₀ (segScore_bracket hbr)
    rw [hp]
    rw [hlen]
    omega

/-- Witness for the amended C6: `/a/b` (fully static, two segments)
strictly outranks `/a/[x]` (two segments, one param). -/
theorem priority_sum_and_same_depth_static_dominance_witness :
    (jsSegments "/a/b").length = (jsSegments "/a/[x]").length
    ∧ (∀ s ∈ jsSegments "/a/b", strStartsWith s "[" = false)
    ∧ (∃ s ∈ jsSegments "/a/[x]", strStartsWith s "[" = true)
    ∧ (createPathRegex "/a/[x]").priority < (createPathRegex "/a/b").priority :=
  ⟨by decide, by decide, by decide,
    priority_sum_and_same_depth_static_dominance.2 "/a/b" "/a/[x]"
      (by decide) (by decide) (by decide)⟩

/-- C6 counterexample: the depth-independent ordering asserted by the
claim fails - the fully static `/a` (priority 1) does not outrank the
param-bearing `/a/b/c/[x]` (priority 2), and the all-params
`/[a]/[b]/[c]/[d]/[e]/[f]` (priority -6) does not outrank the catch-all
`/x1/x2/x3/x4/x5/[...r]` (priority -5). -/
theorem priority_order_not_depth_independent :
    (createPathRegex "/a").priority = 1
    ∧ (createPathRegex "/a/b/c/[x]").priority = 2
    ∧ ¬((createPathRegex "/a/b/c/[x]").priority < (createPathRegex "/a").priority)
    ∧ (createPathRegex "/[a]/[b]/[c]/[d]/[e]/[f]").priority = -6
    ∧ (createPathRegex "/x1/x2/x3/x4/x5/[...r]").priority = -5
    ∧ ¬((createPathRegex "/x1/x2/x3/x4/x5/[...r]").priority
        < (createPathRegex "/[a]/[b]/[c]/[d]/[e]/[f]").priority) := by
  refine ⟨rfl, rfl, by decide, rfl, rfl, by decide⟩

/-- Reading back the key just written by `setParam`. -/
theorem lookup_setParam_self (ps : List (String × String)) (k v : String) :
    (setParam ps k v).lookup k = some v := by
  induction ps with
  | nil => simp [setParam, List.lookup]
  | cons p ps ih =>
    obtain ⟨a, b⟩ := p
    by_cases hak : a = k
    · subst hak
      simp [setParam, List.lookup]
    · rw [setParam, if_neg hak, List.lookup]
      rw [show (k == a) = false by simp [Ne.symm hak]]
      exact ih

/-- Writing one key with `setParam` leaves other keys unread. -/
theorem lookup_setParam_ne :
    ∀ (ps : List (String × String)) (k v n : String), k ≠ n →
      (setParam ps k v).lookup n = ps.lookup n := by
  intro ps
  induction ps with
  | nil =>
    intro k v n h
    simp only [setParam, List.lookup]
    rw [show (n == k) = false by simp [Ne.symm h]]
  | cons p ps ih =>
    intro k v n h
    obtain ⟨a, b⟩ := p
    by_cases hak : a = k
    · subst hak
      rw [setParam, if_pos rfl, List.lookup, List.lookup]
      rw [show (n == a) = false by simp [Ne.symm h]]
    · rw [setParam, if_neg hak, List.lookup, List.lookup]
      cases hna : n == a
      · exact ih k v n h
      · rfl

/-- A fold of `setParam` writing keys other than `n` leaves the binding
of `n` unchanged. -/
theorem lookup_foldl_setParam_ne (caps : List (Option String)) (n : String) :
    ∀ (L : List (String × Nat)) (acc : List (String × String)),
      (∀ q ∈ L, q.1 ≠ n) →
      (L.foldl (fun ps q => setParam ps q.1 (capAt caps q.2)) acc).lookup n
        = acc.lookup n := by
  intro L
  induction L with
  | nil => intro acc _; rfl
  | cons q L ih =>
    intro acc h
    simp only [List.foldl_cons]
    rw [ih _ (fun q' hq' => h q' (by simp [hq'])),
      lookup_setParam_ne _ _ _ _ (h q (by simp))]

/-- Indexing distributes over append, shifting the start index. -/
theorem withIdx_append :
    ∀ (xs ys : List String) (k : Nat),
      withIdx (xs ++ ys) k = withIdx xs k ++ withIdx ys (k + xs.length) := by
  intro xs
  induction xs with
  | nil => intro ys k; simp [withIdx]
  | cons x xs ih =>
    intro ys k
    show (x, k) :: withIdx (xs ++ ys) (k + 1)
      = (x, k) :: (withIdx xs (k + 1) ++ withIdx ys (k + (xs.length + 1)))
    rw [ih ys (k + 1), show k + 1 + xs.length = k + (xs.length + 1) by omega]

/-- Every pair produced by `withIdx` carries an element of the list. -/
theorem mem_withIdx_fst :
    ∀ (l : List String) (k : Nat) (q : String × Nat), q ∈ withIdx l k → q.1 ∈ l := by
  intro l
  induction l with
  | nil => intro k q hq; simp [withIdx] at hq
  | cons x xs ih =>
    intro k q hq
    rw [withIdx] at hq
    rcases List.mem_cons.mp hq with h1 | h1
    · subst h1; simp
    · exact List.mem_cons_of_mem _ (ih _ _ h1)

/-- C10: when a route template containing an optional segment matches a
request path with the optional segment absent - so the corresponding
capture group did not participate, `capAt caps i = ""` - the extracted
parameter object still binds the segment's name, to the empty string
(`match[index + 1] || ''` at lines 450-453), rather than omitting it.
The name's position is given as the last occurrence (`n` not in `post`)
since a later duplicate assignment would win; the catch-all single-name
branch is excluded as the source takes it only for templates that
declare one parameter name in total. -/
theorem optional_param_absent_binds_empty (t p n : String)
    (pre post : List String) (caps : List (Option String))
    (_hopt : (createPathRegex t).isOptional = true)
    (hnames : (createPathRegex t).paramNames = pre ++ n :: post)
    (hpost : n ∉ post)
    (hmatch : routeMatch (createPathRegex t).toks p = some caps)
    (hnotca : ((createPathRegex t).isCatchAll
      && (createPathRegex t).paramNames.length == 1) = false)
    (hcap : capAt caps pre.length = "") :
    (extractPathParams t p).lookup n = some "" := by
  simp only [extractPathParams, bindParams, hmatch, hnotca, Bool.false_eq_true, if_false]
  rw [hnames, withIdx_append, List.foldl_append]
  rw [withIdx]
  simp only [List.foldl_cons, Nat.zero_add]
  rw [lookup_foldl_setParam_ne caps n _ _
    (fun q hq hqn => hpost (by
      have hmem := mem_withIdx_fst _ _ _ hq
      rw [hqn] at hmem
      exact hmem))]
  rw [hcap]
  exact lookup_setParam_self _ n ""

/-- Witness for C10: template `/docs/[[lang]]` matched against `/docs`
(optional segment absent) yields the binding `lang = ""`. -/
theorem optional_param_absent_binds_empty_witness :
    (createPathRegex "/docs/[[lang]]").isOptional = true
    ∧ (createPathRegex "/docs/[[lang]]").paramNames = ["lang"]
    ∧ routeMatch (createPathRegex "/docs/[[lang]]").toks "/docs" = some [none]
    ∧ capAt [none] 0 = ""
    ∧ (extractPathParams "/docs/[[lang]]" "/docs").lookup "lang" = some "" :=
  ⟨rfl, rfl, rfl, rfl,
    optional_param_absent_binds_empty "/docs/[[lang]]" "/docs" "lang" [] [] [none]
      rfl rfl (by decide) rfl rfl rfl⟩
